import Mathlib

/-!
Verification of the bitsock packet codec and server builder
(`src/lib.rs`, `src/server.rs`), as a shallow embedding.

Bytes of the Rust `Vec<u8>` buffers are modelled as `Nat` values below 256 in a
`List Nat`; machine integers are `Nat`/`Int` with explicit reductions modulo
`2 ^ w` where the width matters.  `f32`/`f64` payloads are modelled by their
IEEE-754 bit patterns (a `Nat`), which is exactly what the little-endian
byte writers and readers of the `byteorder` crate move around.
-/

deriving instance DecidableEq for Except

namespace Bitsock

/-- Error returned when a packet cannot be decoded, mirroring the unit struct
`PacketDecodeError` of `src/lib.rs`. -/
inductive PacketDecodeError where
  | mk
deriving DecidableEq, Repr

/-- The `Packet` enum of `src/lib.rs`.  `String` carries the list of Unicode
scalar values of the Rust `String`; `F32`/`F64` carry the IEEE bit pattern. -/
inductive Packet where
  | Invalid
  | Bytes (data : List Nat)
  | String (data : List Nat)
  | I8 (v : Int)
  | I16 (v : Int)
  | I32 (v : Int)
  | I64 (v : Int)
  | F32 (bits : Nat)
  | F64 (bits : Nat)
  | U8 (v : Nat)
  | U16 (v : Nat)
  | U32 (v : Nat)
  | U64 (v : Nat)
  | Identified (id : Nat) (data : List Nat)
deriving DecidableEq, Repr

/-- Little-endian byte list of width `w` for an unsigned value, as written by
`byteorder`'s `write_u*::<LittleEndian>` family. -/
def toLEBytes : Nat → Nat → List Nat
  | 0, _ => []
  | w + 1, v => v % 256 :: toLEBytes w (v / 256)

/-- Unsigned value of a little-endian byte list, as read by `byteorder`'s
`read_u*::<LittleEndian>` family. -/
def fromLEBytes : List Nat → Nat
  | [] => 0
  | b :: rest => b + 256 * fromLEBytes rest

/-- UTF-8 bytes of one Unicode scalar value (the bytes `String::as_bytes`
exposes for that character). -/
def utf8EncodeChar (c : Nat) : List Nat :=
  if c < 0x80 then [c]
  else if c < 0x800 then [0xC0 + c / 64, 0x80 + c % 64]
  else if c < 0x10000 then [0xE0 + c / 4096, 0x80 + c / 64 % 64, 0x80 + c % 64]
  else [0xF0 + c / 262144, 0x80 + c / 4096 % 64, 0x80 + c / 64 % 64, 0x80 + c % 64]

/-- UTF-8 byte sequence of a list of Unicode scalar values, the
`String::as_bytes` view used by `Packet::encode` for the `String` variant. -/
def utf8Encode (s : List Nat) : List Nat :=
  (s.map utf8EncodeChar).flatten

/-- UTF-8 validation and decoding, the behaviour of Rust's
`String::from_utf8`: accepts exactly the RFC 3629 encodings (no overlong
forms, no surrogate code points, nothing above `0x10FFFF`) and yields the
sequence of Unicode scalar values. -/
def utf8Decode : List Nat → Option (List Nat)
  | [] => some []
  | b :: rest =>
    if b < 0x80 then
      match utf8Decode rest with
      | some cps => some (b :: cps)
      | none => none
    else if b < 0xC0 then
      none
    else if b < 0xE0 then
      match rest with
      | b1 :: rest1 =>
        if 0x80 ≤ b1 ∧ b1 < 0xC0 then
          let cp := (b - 0xC0) * 64 + (b1 - 0x80)
          if cp < 0x80 then none
          else
            match utf8Decode rest1 with
            | some cps => some (cp :: cps)
            | none => none
        else none
      | _ => none
    else if b < 0xF0 then
      match rest with
      | b1 :: b2 :: rest2 =>
        if (0x80 ≤ b1 ∧ b1 < 0xC0) ∧ (0x80 ≤ b2 ∧ b2 < 0xC0) then
          let cp := (b - 0xE0) * 4096 + (b1 - 0x80) * 64 + (b2 - 0x80)
          if cp < 0x800 then none
          else if 0xD800 ≤ cp ∧ cp < 0xE000 then none
          else
            match utf8Decode rest2 with
            | some cps => some (cp :: cps)
            | none => none
        else none
      | _ => none
    else if b < 0xF8 then
      match rest with
      | b1 :: b2 :: b3 :: rest3 =>
        if (0x80 ≤ b1 ∧ b1 < 0xC0) ∧ (0x80 ≤ b2 ∧ b2 < 0xC0) ∧
            (0x80 ≤ b3 ∧ b3 < 0xC0) then
          let cp := (b - 0xF0) * 262144 + (b1 - 0x80) * 4096 +
            (b2 - 0x80) * 64 + (b3 - 0x80)
          if cp < 0x10000 then none
          else if 0x10FFFF < cp then none
          else
            match utf8Decode rest3 with
            | some cps => some (cp :: cps)
            | none => none
        else none
      | _ => none
    else none

/-- `Packet::encode` from `src/lib.rs`.

Every non-`Invalid` arm first inserts its tag byte, then pushes a run of
placeholder zero bytes.  For the numeric variants and for the id of
`Identified` the subsequent `(&mut result[1..]).write_*::<LittleEndian>`
call overwrites those zeros in place with the little-endian bytes of the
value (the `Write` impl for `&mut [u8]` writes at the front of the slice),
so the net output is `tag :: LE bytes`.  For `Bytes` the source pushes
`size_of::<u8>() * data.len()` zeros and then pushes the data bytes after
them, with no overwrite; for `String` it pushes `size_of::<String>()` zeros
(24 on a 64-bit platform) and then the UTF-8 bytes, again with no
overwrite, so the placeholders stay in the output.  `Invalid` produces the
empty vector. -/
def Packet.encode : Packet → List Nat
  | .Invalid => []
  | .Bytes data => 1 :: (List.replicate data.length 0 ++ data)
  | .String data => 2 :: (List.replicate 24 0 ++ utf8Encode data)
  | .I8 v => 3 :: toLEBytes 1 (v % 2 ^ 8).toNat
  | .I16 v => 4 :: toLEBytes 2 (v % 2 ^ 16).toNat
  | .I32 v => 5 :: toLEBytes 4 (v % 2 ^ 32).toNat
  | .I64 v => 6 :: toLEBytes 8 (v % 2 ^ 64).toNat
  | .F32 bits => 7 :: toLEBytes 4 (bits % 2 ^ 32)
  | .F64 bits => 8 :: toLEBytes 8 (bits % 2 ^ 64)
  | .U8 v => 9 :: toLEBytes 1 (v % 2 ^ 8)
  | .U16 v => 10 :: toLEBytes 2 (v % 2 ^ 16)
  | .U32 v => 11 :: toLEBytes 4 (v % 2 ^ 32)
  | .U64 v => 12 :: toLEBytes 8 (v % 2 ^ 64)
  | .Identified id data => 13 :: (toLEBytes 4 (id % 2 ^ 32) ++ data)

/-- Behaviour of `Cursor::new(bs).read_uN::<LittleEndian>()` for a width of
`w` bytes: the value of the first `w` bytes, or `none` (an `Err`) when fewer
than `w` bytes are available. -/
def readUIntLE (w : Nat) (bs : List Nat) : Option Nat :=
  if w ≤ bs.length then some (fromLEBytes (bs.take w)) else none

/-- Behaviour of `Cursor::new(bs).read_iN::<LittleEndian>()`: the two's
complement reading of the first `w` bytes, or `none` when fewer than `w`
bytes are available. -/
def readIntLE (w : Nat) (bs : List Nat) : Option Int :=
  (readUIntLE w bs).map fun n =>
    if n < 2 ^ (8 * w - 1) then (n : Int) else (n : Int) - 2 ^ (8 * w)

/-- `Packet::decode` from `src/lib.rs`.

The outer `Option` models Rust panics: `none` is a panic, `some r` is the
function returning `r : Result<Packet, PacketDecodeError>`.  The only
expression in the source that can index out of bounds is
`bytes[std::mem::size_of::<u32>()..]` in the tag-13 arm (a slice from index
4, which panics when `bytes.len() < 4`); it is modelled by the inner length
guard there.  Rust evaluates the id field first, so the early `return Err`
of a failed `read_u32` happens before that slice is taken.  All other arms
only slice from index 1 of a buffer already known non-empty. -/
def Packet.decode (bytes : List Nat) : Option (Except PacketDecodeError Packet) :=
  match bytes with
  | [] => some (.error .mk)
  | b :: rest =>
    if b = 1 then some (.ok (.Bytes rest))
    else if b = 2 then
      match utf8Decode rest with
      | some s => some (.ok (.String s))
      | none => some (.error .mk)
    else if b = 3 then
      match readIntLE 1 rest with
      | some n => some (.ok (.I8 n))
      | none => some (.error .mk)
    else if b = 4 then
      match readIntLE 2 rest with
      | some n => some (.ok (.I16 n))
      | none => some (.error .mk)
    else if b = 5 then
      match readIntLE 4 rest with
      | some n => some (.ok (.I32 n))
      | none => some (.error .mk)
    else if b = 6 then
      match readIntLE 8 rest with
      | some n => some (.ok (.I64 n))
      | none => some (.error .mk)
    else if b = 7 then
      match readUIntLE 4 rest with
      | some n => some (.ok (.F32 n))
      | none => some (.error .mk)
    else if b = 8 then
      match readUIntLE 8 rest with
      | some n => some (.ok (.F64 n))
      | none => some (.error .mk)
    else if b = 9 then
      match readUIntLE 1 rest with
      | some n => some (.ok (.U8 n))
      | none => some (.error .mk)
    else if b = 10 then
      match readUIntLE 2 rest with
      | some n => some (.ok (.U16 n))
      | none => some (.error .mk)
    else if b = 11 then
      match readUIntLE 4 rest with
      | some n => some (.ok (.U32 n))
      | none => some (.error .mk)
    else if b = 12 then
      match readUIntLE 8 rest with
      | some n => some (.ok (.U64 n))
      | none => some (.error .mk)
    else if b = 13 then
      match readUIntLE 4 rest with
      | some id =>
        if 4 ≤ (b :: rest).length then
          some (.ok (.Identified id ((b :: rest).drop 4)))
        else none
      | none => some (.error .mk)
    else some (.ok .Invalid)

/-- Payload width in bytes of each fixed-width tag: the `read_*` byte count
of the corresponding `Packet::decode` arm (for tag 13, the 4-byte id). -/
def numWidth (t : Nat) : Option Nat :=
  if t = 3 then some 1
  else if t = 4 then some 2
  else if t = 5 then some 4
  else if t = 6 then some 8
  else if t = 7 then some 4
  else if t = 8 then some 8
  else if t = 9 then some 1
  else if t = 10 then some 2
  else if t = 11 then some 4
  else if t = 12 then some 8
  else if t = 13 then some 4
  else none

/-- Bind or accept failure carried to the error handler, mirroring
`ServerError(String)` of `src/server.rs`. -/
structure ServerError where
  msg : String
deriving DecidableEq, Repr

/-- An error-handler callback value (`Box<dyn Fn(ServerError)>`).  Closures
are opaque to the core, so a handler is identified only by a label. -/
inductive ErrorHandler where
  | custom (id : Nat)
deriving DecidableEq, Repr

/-- A client-handler callback value (`Box<dyn Fn(LogicalClient)>`).
`printConnected` is the default closure
`|c| println!("... connected.", c.address())` of `ServerBuilder::new`;
user-supplied closures are opaque labels. -/
inductive ClientHandler where
  | printConnected
  | custom (id : Nat)
deriving DecidableEq, Repr

/-- A log-handler callback value (`Box<dyn Fn(LogStage, LogLevel, &str)>`). -/
inductive LogHandler where
  | custom (id : Nat)
deriving DecidableEq, Repr

/-- The `Server` struct of `src/server.rs`.  The `TcpListener` is opaque;
only whether one is held matters to the builder claims. -/
structure Server where
  address : String
  port : Nat
  listener : Option Unit
  error_handler : Option ErrorHandler
  client_handler : ClientHandler
  log_handler : Option LogHandler
deriving DecidableEq, Repr

/-- The `ServerBuilder` struct of `src/server.rs`. -/
structure ServerBuilder where
  address : String
  port : Nat
  error_handler : Option ErrorHandler
  client_handler : ClientHandler
  log_handler : Option LogHandler
deriving DecidableEq, Repr

/-- `ServerBuilder::new`: address "0.0.0.0", port 4444, no error handler,
the console-printing default client handler, no log handler. -/
def ServerBuilder.new : ServerBuilder :=
  ⟨"0.0.0.0", 4444, none, .printConnected, none⟩

/-- `ServerBuilder::address`: replaces the address, moves every other field
across unchanged (`mem::replace` on the option fields yields their previous
values). -/
def ServerBuilder.withAddress (b : ServerBuilder) (address : String) : ServerBuilder :=
  ⟨address, b.port, b.error_handler, b.client_handler, b.log_handler⟩

/-- `ServerBuilder::port`: replaces the port, keeps every other field. -/
def ServerBuilder.withPort (b : ServerBuilder) (port : Nat) : ServerBuilder :=
  ⟨b.address, port, b.error_handler, b.client_handler, b.log_handler⟩

/-- `ServerBuilder::error_handler`: wraps the given handler in `Some`, keeps
every other field. -/
def ServerBuilder.withErrorHandler (b : ServerBuilder) (handler : ErrorHandler) : ServerBuilder :=
  ⟨b.address, b.port, some handler, b.client_handler, b.log_handler⟩

/-- `ServerBuilder::client_handler`: replaces the client handler, keeps
every other field. -/
def ServerBuilder.withClientHandler (b : ServerBuilder) (handler : ClientHandler) : ServerBuilder :=
  ⟨b.address, b.port, b.error_handler, handler, b.log_handler⟩

/-- `ServerBuilder::log_handler`: wraps the given handler in `Some`, keeps
every other field. -/
def ServerBuilder.withLogHandler (b : ServerBuilder) (handler : LogHandler) : ServerBuilder :=
  ⟨b.address, b.port, b.error_handler, b.client_handler, some handler⟩

/-- `ServerBuilder::build`: moves all five builder fields into the `Server`
and sets `listener` to `None`. -/
def ServerBuilder.build (b : ServerBuilder) : Server :=
  ⟨b.address, b.port, none, b.error_handler, b.client_handler, b.log_handler⟩

/-- What a handler dispatch does: call a user-supplied closure, or fall back
to the default `println!` console sink. -/
inductive HandlerAction where
  | printConsole
  | callCustom (id : Nat)
deriving DecidableEq, Repr

/-- Dispatch of `Server::handle_error`: the custom error handler when one is
set, otherwise `println!("...", error)` on the console. -/
def Server.handleErrorAction (s : Server) : HandlerAction :=
  match s.error_handler with
  | some (.custom i) => .callCustom i
  | none => .printConsole

/-- Dispatch of `Server::log`: the custom log handler when one is set,
otherwise `println!("[SERVER][..]: ..")` on the console. -/
def Server.logAction (s : Server) : HandlerAction :=
  match s.log_handler with
  | some (.custom i) => .callCustom i
  | none => .printConsole

/-- One step of the control flow of `Server::run`, in the order the calling
thread performs it. -/
inductive RunEvent where
  | logEvent (msg : String)
  | bindListener (ok : Bool)
  | reportError (msg : String)
  | spawnThread
  | joinThread
deriving DecidableEq, Repr

/-- The sequence of control-flow events `Server::run` performs on the
calling thread before returning, for a given outcome `bindOk` of
`TcpListener::bind`.  The source logs "Starting server", attempts the bind
(reporting a bind failure through `handle_error`), then enters
`crossbeam::thread::scope`, inside which it spawns the accept-loop thread.
`crossbeam::thread::scope` joins every thread spawned in the scope before it
returns — that is its documented contract and the reason the closure may
borrow `self` — so the calling thread performs a join of the accept-loop
thread after spawning it, and only then does `run` return.  The spawn
happens on both bind outcomes (on a failed bind the spawned thread sees
`listener == None` and exits at once). -/
def Server.runTrace (_s : Server) (bindOk : Bool) : List RunEvent :=
  [.logEvent "Starting server", .bindListener bindOk]
    ++ (if bindOk then [] else [.reportError "failed to bind listener to address"])
    ++ [.spawnThread, .joinThread]

/-- Fire-and-forget launch as the spec words it: the calling thread never
joins the spawned thread before returning.  Stated over the event trace of
`Server::run`; used to compare the spec against the source behaviour. -/
def returnsWithoutJoining (tr : List RunEvent) : Prop :=
  RunEvent.joinThread ∉ tr

/-- A successful fixed-width read implies at least that many bytes were
available. -/
theorem length_le_of_readUIntLE_some {w : Nat} {bs : List Nat} {v : Nat}
    (h : readUIntLE w bs = some v) : w ≤ bs.length := by
  by_contra hc
  rw [readUIntLE, if_neg hc] at h
  exact Option.noConfusion h

/-- Inversion of the width table: the only tags with a width are 3 to 13,
with the widths of the corresponding decode arms. -/
theorem numWidth_cases (t w : Nat) (ht : numWidth t = some w) :
    (t = 3 ∧ w = 1) ∨ (t = 4 ∧ w = 2) ∨ (t = 5 ∧ w = 4) ∨ (t = 6 ∧ w = 8) ∨
    (t = 7 ∧ w = 4) ∨ (t = 8 ∧ w = 8) ∨ (t = 9 ∧ w = 1) ∨ (t = 10 ∧ w = 2) ∨
    (t = 11 ∧ w = 4) ∨ (t = 12 ∧ w = 8) ∨ (t = 13 ∧ w = 4) := by
  rw [numWidth] at ht
  by_cases e1 : t = 3
  · rw [if_pos e1] at ht
    exact Or.inl ⟨e1, (Option.some.inj ht).symm⟩
  rw [if_neg e1] at ht
  by_cases e2 : t = 4
  · rw [if_pos e2] at ht
    exact Or.inr (Or.inl ⟨e2, (Option.some.inj ht).symm⟩)
  rw [if_neg e2] at ht
  by_cases e3 : t = 5
  · rw [if_pos e3] at ht
    exact Or.inr (Or.inr (Or.inl ⟨e3, (Option.some.inj ht).symm⟩))
  rw [if_neg e3] at ht
  by_cases e4 : t = 6
  · rw [if_pos e4] at ht
    exact Or.inr (Or.inr (Or.inr (Or.inl ⟨e4, (Option.some.inj ht).symm⟩)))
  rw [if_neg e4] at ht
  by_cases e5 : t = 7
  · rw [if_pos e5] at ht
    exact Or.inr (Or.inr (Or.inr (Or.inr (Or.inl ⟨e5, (Option.some.inj ht).symm⟩))))
  rw [if_neg e5] at ht
  by_cases e6 : t = 8
  · rw [if_pos e6] at ht
    exact Or.inr (Or.inr (Or.inr (Or.inr (Or.inr (Or.inl
      ⟨e6, (Option.some.inj ht).symm⟩)))))
  rw [if_neg e6] at ht
  by_cases e7 : t = 9
  · rw [if_pos e7] at ht
    exact Or.inr (Or.inr (Or.inr (Or.inr (Or.inr (Or.inr (Or.inl
      ⟨e7, (Option.some.inj ht).symm⟩))))))
  rw [if_neg e7] at ht
  by_cases e8 : t = 10
  · rw [if_pos e8] at ht
    exact Or.inr (Or.inr (Or.inr (Or.inr (Or.inr (Or.inr (Or.inr (Or.inl
      ⟨e8, (Option.some.inj ht).symm⟩)))))))
  rw [if_neg e8] at ht
  by_cases e9 : t = 11
  · rw [if_pos e9] at ht
    exact Or.inr (Or.inr (Or.inr (Or.inr (Or.inr (Or.inr (Or.inr (Or.inr (Or.inl
      ⟨e9, (Option.some.inj ht).symm⟩))))))))
  rw [if_neg e9] at ht
  by_cases e10 : t = 12
  · rw [if_pos e10] at ht
    exact Or.inr (Or.inr (Or.inr (Or.inr (Or.inr (Or.inr (Or.inr (Or.inr (Or.inr
      (Or.inl ⟨e10, (Option.some.inj ht).symm⟩)))))))))
  rw [if_neg e10] at ht
  by_cases e11 : t = 13
  · rw [if_pos e11] at ht
    exact Or.inr (Or.inr (Or.inr (Or.inr (Or.inr (Or.inr (Or.inr (Or.inr (Or.inr
      (Or.inr ⟨e11, (Option.some.inj ht).symm⟩)))))))))
  rw [if_neg e11] at ht
  exact Option.noConfusion ht

/-- Claim C1: the spec asserts decode ∘ encode is the identity on every
non-Invalid packet.  The code refutes it: `Bytes [42]` comes back with a
leading padding zero, `String "a"` comes back with 24 leading NUL
characters, and `Identified` comes back with the high byte of its id
prepended to the payload. -/
theorem roundtrip_divergence_bytes_string_identified :
    Packet.decode (Packet.encode (.Bytes [42])) = some (.ok (.Bytes [0, 42])) ∧
    Packet.decode (Packet.encode (.String [97])) =
      some (.ok (.String (List.replicate 24 0 ++ [97]))) ∧
    Packet.decode (Packet.encode (.Identified 16909060 [9])) =
      some (.ok (.Identified 16909060 [1, 9])) := by
  decide

/-- Claim C2: the spec asserts the encoding is exactly one tag byte followed
by the raw payload.  The code refutes it for `Bytes` and `String`: a run of
placeholder zeros that is never overwritten sits between the tag and the
content. -/
theorem encode_layout_divergence_bytes_string :
    Packet.encode (.Bytes [42]) = [1, 0, 42] ∧
    Packet.encode (.Bytes [42]) ≠ [1, 42] ∧
    Packet.encode (.String [97]) = 2 :: (List.replicate 24 0 ++ [97]) ∧
    Packet.encode (.String [97]) ≠ [2, 97] ∧
    Packet.encode (.U16 513) = [10, 1, 2] ∧
    Packet.encode (.Identified 16909060 [9]) = [13, 4, 3, 2, 1, 9] := by
  decide

/-- Claim C3: for every buffer starting with a fixed-width tag and holding
fewer remaining bytes than that width, decode returns the decode error; and
decode never panics (never hits an out-of-bounds index) on any input. -/
theorem decode_truncated_numeric_errs_never_panics :
    (∀ (t w : Nat) (rest : List Nat), numWidth t = some w → rest.length < w →
      Packet.decode (t :: rest) = some (Except.error PacketDecodeError.mk)) ∧
    (∀ bs : List Nat, (Packet.decode bs).isSome = true) := by
  constructor
  · intro t w rest ht hlt
    have hr : readUIntLE w rest = none := by
      rw [readUIntLE, if_neg (by omega)]
    rcases numWidth_cases t w ht with
      htw | htw | htw | htw | htw | htw | htw | htw | htw | htw | htw <;>
      obtain ⟨rfl, rfl⟩ := htw <;>
      simp [Packet.decode, readIntLE, hr]
  · intro bs
    cases bs with
    | nil => simp [Packet.decode]
    | cons b rest =>
      simp only [Packet.decode]
      by_cases c1 : b = 1
      · rw [if_pos c1]
        simp
      rw [if_neg c1]
      by_cases c2 : b = 2
      · rw [if_pos c2]
        cases utf8Decode rest <;> simp
      rw [if_neg c2]
      by_cases c3 : b = 3
      · rw [if_pos c3]
        cases readIntLE 1 rest <;> simp
      rw [if_neg c3]
      by_cases c4 : b = 4
      · rw [if_pos c4]
        cases readIntLE 2 rest <;> simp
      rw [if_neg c4]
      by_cases c5 : b = 5
      · rw [if_pos c5]
        cases readIntLE 4 rest <;> simp
      rw [if_neg c5]
      by_cases c6 : b = 6
      · rw [if_pos c6]
        cases readIntLE 8 rest <;> simp
      rw [if_neg c6]
      by_cases c7 : b = 7
      · rw [if_pos c7]
        cases readUIntLE 4 rest <;> simp
      rw [if_neg c7]
      by_cases c8 : b = 8
      · rw [if_pos c8]
        cases readUIntLE 8 rest <;> simp
      rw [if_neg c8]
      by_cases c9 : b = 9
      · rw [if_pos c9]
        cases readUIntLE 1 rest <;> simp
      rw [if_neg c9]
      by_cases c10 : b = 10
      · rw [if_pos c10]
        cases readUIntLE 2 rest <;> simp
      rw [if_neg c10]
      by_cases c11 : b = 11
      · rw [if_pos c11]
        cases readUIntLE 4 rest <;> simp
      rw [if_neg c11]
      by_cases c12 : b = 12
      · rw [if_pos c12]
        cases readUIntLE 8 rest <;> simp
      rw [if_neg c12]
      by_cases c13 : b = 13
      · rw [if_pos c13]
        cases hid : readUIntLE 4 rest with
        | none => simp
        | some id =>
          have hlen := length_le_of_readUIntLE_some hid
          simp
          omega
      rw [if_neg c13]
      simp

/-- Witness for claim C3 at the concrete input `[3]`: an `I8` tag with no
payload byte decodes to the error. -/
theorem decode_truncated_numeric_errs_never_panics_witness :
    Packet.decode [3] = some (Except.error PacketDecodeError.mk) :=
  decode_truncated_numeric_errs_never_panics.1 3 1 [] rfl (by decide)

/-- Claim C4: the empty buffer decodes to the error, any non-empty buffer
whose first byte is 0 or above 13 decodes to `Ok(Invalid)`, and the two
outcomes differ. -/
theorem decode_empty_errs_unknown_tag_invalid :
    Packet.decode [] = some (Except.error PacketDecodeError.mk) ∧
    (∀ (b : Nat) (rest : List Nat), b = 0 ∨ 13 < b →
      Packet.decode (b :: rest) = some (Except.ok Packet.Invalid)) ∧
    (some (Except.error PacketDecodeError.mk) ≠
      (some (Except.ok Packet.Invalid) : Option (Except PacketDecodeError Packet))) := by
  refine ⟨rfl, ?_, by simp⟩
  intro b rest h
  have n1 : b ≠ 1 := by omega
  have n2 : b ≠ 2 := by omega
  have n3 : b ≠ 3 := by omega
  have n4 : b ≠ 4 := by omega
  have n5 : b ≠ 5 := by omega
  have n6 : b ≠ 6 := by omega
  have n7 : b ≠ 7 := by omega
  have n8 : b ≠ 8 := by omega
  have n9 : b ≠ 9 := by omega
  have n10 : b ≠ 10 := by omega
  have n11 : b ≠ 11 := by omega
  have n12 : b ≠ 12 := by omega
  have n13 : b ≠ 13 := by omega
  simp only [Packet.decode]
  rw [if_neg n1, if_neg n2, if_neg n3, if_neg n4, if_neg n5, if_neg n6,
    if_neg n7, if_neg n8, if_neg n9, if_neg n10, if_neg n11, if_neg n12,
    if_neg n13]

/-- Witness for claim C4 at the concrete inputs `[14, 3]` and `[0]`. -/
theorem decode_empty_errs_unknown_tag_invalid_witness :
    Packet.decode [14, 3] = some (Except.ok Packet.Invalid) ∧
    Packet.decode [0] = some (Except.ok Packet.Invalid) :=
  ⟨decode_empty_errs_unknown_tag_invalid.2.1 14 [3] (Or.inr (by decide)),
   decode_empty_errs_unknown_tag_invalid.2.1 0 [] (Or.inl rfl)⟩

/-- Claim C5: under the String tag, decode fails exactly when the remainder
is not valid UTF-8, and otherwise yields the String packet holding the
UTF-8 decoding of the remainder. -/
theorem decode_string_arm_utf8 :
    ∀ rest : List Nat,
      (Packet.decode (2 :: rest) = some (Except.error PacketDecodeError.mk) ↔
        utf8Decode rest = none) ∧
      (∀ s, utf8Decode rest = some s →
        Packet.decode (2 :: rest) = some (Except.ok (Packet.String s))) := by
  intro rest
  cases h : utf8Decode rest with
  | none =>
    refine ⟨by simp [Packet.decode, h], ?_⟩
    intro s hs
    exact absurd hs (by simp)
  | some cps =>
    refine ⟨by simp [Packet.decode, h], ?_⟩
    intro s hs
    obtain rfl := Option.some.inj hs
    simp [Packet.decode, h]

/-- Witness for claim C5: the invalid byte `0xFF` is rejected, the single
byte `97` decodes to the one-character string "a". -/
theorem decode_string_arm_utf8_witness :
    Packet.decode [2, 255] = some (Except.error PacketDecodeError.mk) ∧
    Packet.decode [2, 97] = some (Except.ok (Packet.String [97])) :=
  ⟨(decode_string_arm_utf8 [255]).1.mpr (by decide),
   (decode_string_arm_utf8 [97]).2 [97] (by decide)⟩

/-- Claim C6: the spec asserts both empty-payload round trips succeed to the
empty value.  The code confirms it for `Bytes []` but refutes it for
`String ""`, which comes back as a string of 24 NUL characters because the
24 placeholder zeros of the encoder are never overwritten. -/
theorem empty_payload_roundtrip_divergence :
    Packet.decode (Packet.encode (.Bytes [])) = some (.ok (.Bytes [])) ∧
    Packet.decode (Packet.encode (.String [])) =
      some (.ok (.String (List.replicate 24 0))) ∧
    Packet.encode (.String []) ≠ [2] := by
  decide

/-- Claim C7, refuted as stated: at a concretely built server with a
successful bind, the calling thread of `Server::run` joins the spawned
accept-loop thread before returning (the scoped-thread construct waits for
it), so `run` does not return as soon as the thread is launched. -/
theorem run_fire_and_forget_refuted :
    ¬ returnsWithoutJoining (Server.runTrace (ServerBuilder.new.build) true) := by
  intro h
  exact h (by decide)

/-- Claim C7 as amended: for every server and either bind outcome, `run`
spawns the accept-loop thread and then joins it as the last two things the
calling thread does before `run` returns; the caller still holds no handle
to the thread. -/
theorem run_joins_accept_loop_before_returning :
    ∀ (s : Server) (bindOk : Bool), ∃ pre,
      Server.runTrace s bindOk = pre ++ [RunEvent.spawnThread, RunEvent.joinThread] := by
  intro s bindOk
  cases bindOk with
  | false =>
    exact ⟨[.logEvent "Starting server", .bindListener false,
      .reportError "failed to bind listener to address"], rfl⟩
  | true =>
    exact ⟨[.logEvent "Starting server", .bindListener true], rfl⟩

/-- Claim C8: an unconfigured builder builds a server with address
"0.0.0.0", port 4444, no error handler and no log handler, so both the
error path and the log path dispatch to the default console sink. -/
theorem builder_defaults_console :
    (ServerBuilder.new.build).address = "0.0.0.0" ∧
    (ServerBuilder.new.build).port = 4444 ∧
    (ServerBuilder.new.build).error_handler = none ∧
    (ServerBuilder.new.build).log_handler = none ∧
    Server.handleErrorAction (ServerBuilder.new.build) = HandlerAction.printConsole ∧
    Server.logAction (ServerBuilder.new.build) = HandlerAction.printConsole :=
  ⟨rfl, rfl, rfl, rfl, rfl, rfl⟩

/-- Claim C9: `Invalid` encodes to the empty vector, decoding that yields
the decode error, and every other variant encodes to a non-empty vector
(each inserts its tag byte first), so only `Invalid` fails to round-trip
for emptiness reasons. -/
theorem invalid_encodes_empty_never_roundtrips :
    Packet.encode Packet.Invalid = [] ∧
    Packet.decode (Packet.encode Packet.Invalid) =
      some (Except.error PacketDecodeError.mk) ∧
    (∀ p : Packet, p ≠ Packet.Invalid → Packet.encode p ≠ []) := by
  refine ⟨rfl, rfl, ?_⟩
  intro p hp
  cases p <;> first | exact absurd rfl hp | simp [Packet.encode]

/-- Witness for claim C9 at the concrete packet `U8 5`. -/
theorem invalid_encodes_empty_never_roundtrips_witness :
    Packet.encode (Packet.U8 5) ≠ [] :=
  invalid_encodes_empty_never_roundtrips.2.2 (Packet.U8 5) (by decide)

/-- Claim C10: every builder setter changes only its own field, and `build`
carries all five fields into the server unchanged with `listener` set to
`None`, for every builder state and every argument. -/
theorem builder_setters_frame_build_carries :
    ∀ (b : ServerBuilder) (a : String) (p : Nat) (eh : ErrorHandler)
      (ch : ClientHandler) (lh : LogHandler),
      ((b.withAddress a).address = a ∧ (b.withAddress a).port = b.port ∧
        (b.withAddress a).error_handler = b.error_handler ∧
        (b.withAddress a).client_handler = b.client_handler ∧
        (b.withAddress a).log_handler = b.log_handler) ∧
      ((b.withPort p).address = b.address ∧ (b.withPort p).port = p ∧
        (b.withPort p).error_handler = b.error_handler ∧
        (b.withPort p).client_handler = b.client_handler ∧
        (b.withPort p).log_handler = b.log_handler) ∧
      ((b.withErrorHandler eh).address = b.address ∧
        (b.withErrorHandler eh).port = b.port ∧
        (b.withErrorHandler eh).error_handler = some eh ∧
        (b.withErrorHandler eh).client_handler = b.client_handler ∧
        (b.withErrorHandler eh).log_handler = b.log_handler) ∧
      ((b.withClientHandler ch).address = b.address ∧
        (b.withClientHandler ch).port = b.port ∧
        (b.withClientHandler ch).error_handler = b.error_handler ∧
        (b.withClientHandler ch).client_handler = ch ∧
        (b.withClientHandler ch).log_handler = b.log_handler) ∧
      ((b.withLogHandler lh).address = b.address ∧
        (b.withLogHandler lh).port = b.port ∧
        (b.withLogHandler lh).error_handler = b.error_handler ∧
        (b.withLogHandler lh).client_handler = b.client_handler ∧
        (b.withLogHandler lh).log_handler = some lh) ∧
      (b.build.address = b.address ∧ b.build.port = b.port ∧
        b.build.listener = none ∧ b.build.error_handler = b.error_handler ∧
        b.build.client_handler = b.client_handler ∧
        b.build.log_handler = b.log_handler) :=
  fun _ _ _ _ _ _ =>
    ⟨⟨rfl, rfl, rfl, rfl, rfl⟩, ⟨rfl, rfl, rfl, rfl, rfl⟩,
     ⟨rfl, rfl, rfl, rfl, rfl⟩, ⟨rfl, rfl, rfl, rfl, rfl⟩,
     ⟨rfl, rfl, rfl, rfl, rfl⟩, rfl, rfl, rfl, rfl, rfl, rfl⟩

end Bitsock
